import Mathlib

/-!
Shallow embedding of the sports-betting-platform core pipeline
(src/services/market_analyzer.py, src/services/value_finder.py,
src/services/odds_fetcher.py, src/models/database.py, src/config/settings.py).

Python floats are modelled as exact rationals; machine rounding is out of
scope for the algebraic claims considered here.  Fallible Python code
(paths that raise TypeError or ZeroDivisionError) is modelled with
Except Unit; SQLAlchemy storage is modelled as explicit list-valued state.
-/

/-! ## Configuration constants (src/config/settings.py) -/

def SHARP_BOOKS : List String := ["pinnacle", "betfair"]

def SOFT_BOOKS : List String := ["draftkings", "fanduel", "bet365", "betmgm"]

def ALL_BOOKS : List String := SHARP_BOOKS ++ SOFT_BOOKS

def MIN_EDGE_PERCENT : ℚ := 5

def MIN_PROBABILITY : ℚ := 7/20

def KELLY_FRACTION : ℚ := 1/4

def DEFAULT_BANKROLL : ℚ := 1000

def MAX_BET_PERCENT : ℚ := 1/20

/-! ## Data model (src/models/database.py) -/

/-- A row of the games table.  Fields in declaration order:
id, odds_api_id, league, home_team, away_team, commence_time, result. -/
structure Game where
  id : Nat
  odds_api_id : String
  league : String
  home_team : String
  away_team : String
  commence_time : Int
  result : Option String
deriving DecidableEq

/-- A row of the odds_snapshots table.  Fields in declaration order:
game_id, bookmaker, home_odds, away_odds, draw_odds, home_implied_prob,
away_implied_prob, draw_implied_prob, snapshot_time. -/
structure OddsSnapshot where
  game_id : Nat
  bookmaker : String
  home_odds : ℚ
  away_odds : ℚ
  draw_odds : Option ℚ
  home_implied_prob : ℚ
  away_implied_prob : ℚ
  draw_implied_prob : Option ℚ
  snapshot_time : Nat
deriving DecidableEq

/-- A row of the value_bets table (the fields find_value_bets populates).
Order: game_id, home_team, away_team, betting_selection, my_probability,
market_probability, offered_odds, fair_odds, edge_percent, bookmaker,
kelly_fraction, recommended_stake. -/
structure ValueBet where
  game_id : Nat
  home_team : String
  away_team : String
  betting_selection : String
  my_probability : ℚ
  market_probability : ℚ
  offered_odds : ℚ
  fair_odds : ℚ
  edge_percent : ℚ
  bookmaker : String
  kelly_fraction : ℚ
  recommended_stake : ℚ
deriving DecidableEq

/-! ## Market analyzer (src/services/market_analyzer.py) -/

/-- Result dictionary of MarketAnalyzer.calculate_vig.
Order: total_probability, vig, vig_percent. -/
structure VigData where
  total_probability : ℚ
  vig : ℚ
  vig_percent : ℚ
deriving DecidableEq

/-- Result dictionary of MarketAnalyzer.remove_vig.
Order: home, away, draw, vig_removed. -/
structure FairProbs where
  home : ℚ
  away : ℚ
  draw : Option ℚ
  vig_removed : ℚ
deriving DecidableEq

/-- Result dictionary of MarketAnalyzer.get_market_consensus.
Order: home_probability, away_probability, draw_probability,
source_count, consensus_type. -/
structure Consensus where
  home_probability : ℚ
  away_probability : ℚ
  draw_probability : Option ℚ
  source_count : Nat
  consensus_type : String
deriving DecidableEq

/-- One discrepancy dictionary emitted by identify_soft_book_discrepancies.
Order: bookmaker, selection, offered_odds, fair_odds, edge_percent,
implied_prob_soft, implied_prob_consensus. -/
structure Discrepancy where
  bookmaker : String
  selection : String
  offered_odds : ℚ
  fair_odds : ℚ
  edge_percent : ℚ
  implied_prob_soft : ℚ
  implied_prob_consensus : ℚ
deriving DecidableEq

/-- Bookmaker membership test used at market_analyzer.py line 91. -/
def is_sharp (s : OddsSnapshot) : Bool :=
  SHARP_BOOKS.contains s.bookmaker

/-- Bookmaker membership test used at market_analyzer.py line 136. -/
def is_soft (s : OddsSnapshot) : Bool :=
  SOFT_BOOKS.contains s.bookmaker

/-- Stable insertion into a list kept in descending snapshot_time order. -/
def insert_desc (s : OddsSnapshot) : List OddsSnapshot → List OddsSnapshot
  | [] => [s]
  | t :: ts => if t.snapshot_time ≤ s.snapshot_time then s :: t :: ts else t :: insert_desc s ts

/-- Stable sort by descending snapshot_time, modelling
ORDER BY snapshot_time DESC of get_latest_snapshot_for_game. -/
def sort_desc : List OddsSnapshot → List OddsSnapshot
  | [] => []
  | s :: ss => insert_desc s (sort_desc ss)

/-- MarketAnalyzer.get_latest_snapshot_for_game: all snapshots of the game,
ordered by descending snapshot time.  The store is the odds_snapshots table. -/
def get_latest_snapshot_for_game (store : List OddsSnapshot) (game_id : Nat) :
    List OddsSnapshot :=
  sort_desc (store.filter (fun s => s.game_id == game_id))

/-- MarketAnalyzer.calculate_vig.  Python `(draw_prob or 0)` maps None and
0.0 to 0, i.e. Option.getD 0. -/
def calculate_vig (home_prob away_prob : ℚ) (draw_prob : Option ℚ) : VigData :=
  let total_prob := home_prob + away_prob + draw_prob.getD 0
  let vig := total_prob - 1
  let vig_percent := if total_prob > 0 then vig / total_prob * 100 else 0
  VigData.mk total_prob vig vig_percent

/-- MarketAnalyzer.remove_vig.  Python `(draw_prob / (1 + vig)) if draw_prob
else None` maps both None and 0.0 to None in the divided branch. -/
def remove_vig (home_prob away_prob : ℚ) (draw_prob : Option ℚ) : FairProbs :=
  let vig_data := calculate_vig home_prob away_prob draw_prob
  if vig_data.vig = 0 then
    FairProbs.mk home_prob away_prob draw_prob 0
  else
    let fair_home := home_prob / (1 + vig_data.vig)
    let fair_away := away_prob / (1 + vig_data.vig)
    let fair_draw :=
      match draw_prob with
      | none => none
      | some d => if d = 0 then none else some (d / (1 + vig_data.vig))
    FairProbs.mk fair_home fair_away fair_draw vig_data.vig_percent

/-- Averaging step of get_market_consensus over the non-empty snapshot list
s0 :: rest (market_analyzer.py lines 97-112).  Python's
`sum(s.draw_implied_prob for s in snapshots)` raises TypeError when the
first snapshot carries a draw probability but some snapshot does not;
that path is the .error case. -/
def consensus_agg (s0 : OddsSnapshot) (rest : List OddsSnapshot)
    (use_sharp_only : Bool) : Except Unit (Option Consensus) :=
  let snaps := s0 :: rest
  let n : ℚ := (snaps.length : ℚ)
  let avg_home := (snaps.map (fun s => s.home_implied_prob)).sum / n
  let avg_away := (snaps.map (fun s => s.away_implied_prob)).sum / n
  let tag := if use_sharp_only then "sharp" else "all"
  match s0.draw_implied_prob with
  | none => .ok (some (Consensus.mk avg_home avg_away none snaps.length tag))
  | some _ =>
    if snaps.all (fun s => s.draw_implied_prob.isSome) then
      .ok (some (Consensus.mk avg_home avg_away
        (some ((snaps.map (fun s => s.draw_implied_prob.getD 0)).sum / n))
        snaps.length tag))
    else .error ()

/-- MarketAnalyzer.get_market_consensus applied to the already-queried
snapshot list for the game. -/
def consensus_core (snapshots : List OddsSnapshot) (use_sharp_only : Bool) :
    Except Unit (Option Consensus) :=
  match snapshots with
  | [] => .ok none
  | _ :: _ =>
    match (if use_sharp_only then snapshots.filter is_sharp else snapshots) with
    | [] => .ok none
    | s0 :: rest => consensus_agg s0 rest use_sharp_only

/-- MarketAnalyzer.get_market_consensus: query the store, then aggregate. -/
def get_market_consensus (store : List OddsSnapshot) (game_id : Nat)
    (use_sharp_only : Bool) : Except Unit (Option Consensus) :=
  consensus_core (get_latest_snapshot_for_game store game_id) use_sharp_only

/-- The edge expression of market_analyzer.py lines 141 and 156:
((offered_odds / fair_odds) - 1) * 100. -/
def edge_percent_calc (fair_odds offered_odds : ℚ) : ℚ :=
  (offered_odds / fair_odds - 1) * 100

/-- Per-snapshot body of the identify_soft_book_discrepancies loop:
the Home check followed by the Away check. -/
def soft_checks (consensus : Consensus) (min_edge_percent : ℚ)
    (snap : OddsSnapshot) : List Discrepancy :=
  let home_fair_odds := 1 / consensus.home_probability
  let home_edge := edge_percent_calc home_fair_odds snap.home_odds
  let home_list :=
    if home_edge ≥ min_edge_percent then
      [Discrepancy.mk snap.bookmaker "Home" snap.home_odds home_fair_odds
        home_edge snap.home_implied_prob consensus.home_probability]
    else []
  let away_fair_odds := 1 / consensus.away_probability
  let away_edge := edge_percent_calc away_fair_odds snap.away_odds
  let away_list :=
    if away_edge ≥ min_edge_percent then
      [Discrepancy.mk snap.bookmaker "Away" snap.away_odds away_fair_odds
        away_edge snap.away_implied_prob consensus.away_probability]
    else []
  home_list ++ away_list

/-- MarketAnalyzer.identify_soft_book_discrepancies applied to the queried
snapshot list.  `1.0 / consensus[..]` runs inside the loop, so a zero
consensus probability raises ZeroDivisionError only when at least one soft
snapshot exists; that path is the .error case. -/
def identify_core (snapshots : List OddsSnapshot) (min_edge_percent : ℚ) :
    Except Unit (List Discrepancy) :=
  match consensus_core snapshots true with
  | .error e => .error e
  | .ok none => .ok []
  | .ok (some consensus) =>
    if (snapshots.filter is_soft).isEmpty then .ok []
    else if consensus.home_probability = 0 ∨ consensus.away_probability = 0 then
      .error ()
    else .ok ((snapshots.filter is_soft).flatMap (soft_checks consensus min_edge_percent))

/-- MarketAnalyzer.identify_soft_book_discrepancies; the internal
get_market_consensus call re-queries the same store. -/
def identify_soft_book_discrepancies (store : List OddsSnapshot)
    (game_id : Nat) (min_edge_percent : ℚ) : Except Unit (List Discrepancy) :=
  identify_core (get_latest_snapshot_for_game store game_id) min_edge_percent

/-! ## Value finder (src/services/value_finder.py) -/

/-- ValueFinder.calculate_kelly_bet (value_finder.py lines 22-52). -/
def calculate_kelly_bet (win_prob odds bankroll kelly_fraction : ℚ) : ℚ :=
  let b := odds - 1
  let q := 1 - win_prob
  if b ≤ 0 ∨ odds ≤ 1 then 0
  else
    let full_kelly := (b * win_prob - q) / b
    let kelly_pct := max 0 (full_kelly * kelly_fraction)
    let bet_size := bankroll * kelly_pct
    max 0 (min bet_size (bankroll * MAX_BET_PERCENT))

/-- Body of the discrepancy loop of find_value_bets (lines 87-120):
resolve my_probability by selection, apply the min_probability filter,
and build the ValueBet row. -/
def mk_value_bet (g : Game) (c : Consensus) (min_probability : ℚ)
    (d : Discrepancy) : Option ValueBet :=
  if (if d.selection = "Home" then c.home_probability else c.away_probability) <
      min_probability then none
  else
    some (ValueBet.mk g.id g.home_team g.away_team d.selection
      (if d.selection = "Home" then c.home_probability else c.away_probability)
      d.implied_prob_consensus d.offered_odds d.fair_odds d.edge_percent
      d.bookmaker KELLY_FRACTION
      (calculate_kelly_bet
        (if d.selection = "Home" then c.home_probability else c.away_probability)
        d.offered_odds DEFAULT_BANKROLL KELLY_FRACTION))

/-- Per-game loop of find_value_bets over the filtered games list.
The exceptions get_market_consensus or identify_soft_book_discrepancies can
raise propagate out of find_value_bets (no handler there). -/
def find_value_bets_go (snaps : List OddsSnapshot)
    (min_edge_percent min_probability : ℚ) :
    List Game → Except Unit (List ValueBet)
  | [] => .ok []
  | g :: rest =>
    match get_market_consensus snaps g.id true with
    | .error e => .error e
    | .ok none => find_value_bets_go snaps min_edge_percent min_probability rest
    | .ok (some c) =>
      match identify_soft_book_discrepancies snaps g.id min_edge_percent with
      | .error e => .error e
      | .ok discs =>
        match find_value_bets_go snaps min_edge_percent min_probability rest with
        | .error e => .error e
        | .ok more => .ok (discs.filterMap (mk_value_bet g c min_probability) ++ more)

/-- The games and odds_snapshots tables together with the autoincrement
counter for Game primary keys. -/
structure DBState where
  games : List Game
  snapshots : List OddsSnapshot
  next_game_id : Nat
deriving DecidableEq

/-- ValueFinder.find_value_bets: scan games with no result and a future
start time (value_finder.py lines 54-138). -/
def find_value_bets (db : DBState) (now : Int)
    (min_edge_percent min_probability : ℚ) : Except Unit (List ValueBet) :=
  find_value_bets_go db.snapshots min_edge_percent min_probability
    (db.games.filter (fun g => g.result.isNone && decide (now < g.commence_time)))

/-! ## Odds fetcher (src/services/odds_fetcher.py)

The feed payload of get_upcoming_odds is a parameter; the ISO-8601
commence-time string is modelled as an already-parsed timestamp (parsing
of present values is treated as total; malformed strings are out of
scope of the claims settled here).  Whether a flushed snapshot violates
the duplicate-snapshot constraint at commit time is decided by the
storage engine, not by code under src/, so it is a predicate parameter. -/

/-- One `\x7boutcome_label, decimal_price\x7d` pair of a market;
either field may be missing in a malformed payload. -/
structure Outcome where
  name : Option String
  price : Option ℚ
deriving DecidableEq

/-- One market block (we only consume the h2h market). -/
structure Market where
  outcomes : List Outcome
deriving DecidableEq

/-- One bookmaker block of an event. -/
structure BookmakerData where
  key : Option String
  markets : List Market
deriving DecidableEq

/-- One event object returned by the feed. -/
structure Event where
  id : Option String
  home_team : Option String
  away_team : Option String
  commence_time : Option Int
  bookmakers : List BookmakerData
deriving DecidableEq

/-- Python truthiness of an optional price: None and 0 are falsy. -/
def truthyQ (o : Option ℚ) : Bool :=
  match o with
  | none => false
  | some q => decide (q ≠ 0)

/-- `outcome_map.get(label)` where outcome_map is the dict
comprehension of odds_fetcher.py line 148: later duplicate labels
overwrite earlier ones, and a missing key yields None. -/
def lookup_price (outcomes : List Outcome) (label : String) : Option ℚ :=
  match outcomes.reverse.find? (fun o => o.name == some label) with
  | none => none
  | some o => o.price

/-- One iteration of the bookmaker loop (odds_fetcher.py lines 128-173):
either skip the block (none) or produce the snapshot to add. -/
def process_bookmaker (home_team away_team : String) (game_id : Nat)
    (now : Nat) (bd : BookmakerData) : Option OddsSnapshot :=
  match bd.key with
  | none => none
  | some key =>
    if key = "" then none
    else if ¬ (ALL_BOOKS.contains key) then none
    else
      match bd.markets with
      | [] => none
      | market :: _ =>
        if market.outcomes.isEmpty then none
        else
          if truthyQ (lookup_price market.outcomes home_team) &&
              truthyQ (lookup_price market.outcomes away_team) then
            some (OddsSnapshot.mk game_id key
              ((lookup_price market.outcomes home_team).getD 0)
              ((lookup_price market.outcomes away_team).getD 0)
              (lookup_price market.outcomes "Draw")
              (1 / (lookup_price market.outcomes home_team).getD 0)
              (1 / (lookup_price market.outcomes away_team).getD 0)
              (if truthyQ (lookup_price market.outcomes "Draw") then
                some (1 / (lookup_price market.outcomes "Draw").getD 0)
              else none)
              now)
          else none

/-- Game upsert of odds_fetcher.py lines 107-121: reuse the row whose
odds_api_id matches, otherwise create and commit a new one. -/
def upsert_game (db : DBState) (event_id sport home_team away_team : String)
    (commence_time : Int) : DBState × Game :=
  match db.games.find? (fun g => g.odds_api_id == event_id) with
  | some g => (db, g)
  | none =>
    let g := Game.mk db.next_game_id event_id sport.toUpper home_team away_team
      commence_time none
    (DBState.mk (db.games ++ [g]) db.snapshots (db.next_game_id + 1), g)

/-- One iteration of the event loop of ingest_odds (lines 92-183).
Snapshot adds are flushed by the per-event commit at line 175: when the
duplicate-snapshot constraint fires there (IntegrityError), the rollback
discards every pending snapshot of the event, while ingested_count has
already been incremented for each of them.  The Game row was committed
separately at line 118 and survives the rollback. -/
def process_event (dup : OddsSnapshot → Bool) (sport : String) (now : Nat)
    (db : DBState) (event : Event) : DBState × Nat :=
  match event.id, event.home_team, event.away_team, event.commence_time with
  | some eid, some ht, some aw, some ct =>
    if eid = "" ∨ ht = "" ∨ aw = "" then (db, 0)
    else
      if event.bookmakers.isEmpty then ((upsert_game db eid sport ht aw ct).1, 0)
      else
        if (event.bookmakers.filterMap
            (process_bookmaker ht aw (upsert_game db eid sport ht aw ct).2.id now)).any dup then
          ((upsert_game db eid sport ht aw ct).1,
            (event.bookmakers.filterMap
              (process_bookmaker ht aw (upsert_game db eid sport ht aw ct).2.id now)).length)
        else
          (DBState.mk (upsert_game db eid sport ht aw ct).1.games
            ((upsert_game db eid sport ht aw ct).1.snapshots ++
              event.bookmakers.filterMap
                (process_bookmaker ht aw (upsert_game db eid sport ht aw ct).2.id now))
            (upsert_game db eid sport ht aw ct).1.next_game_id,
            (event.bookmakers.filterMap
              (process_bookmaker ht aw (upsert_game db eid sport ht aw ct).2.id now)).length)
  | _, _, _, _ => (db, 0)

/-- Fold of process_event over the events list, accumulating
ingested_count. -/
def ingest_go (dup : OddsSnapshot → Bool) (sport : String) (now : Nat) :
    List Event → DBState → Nat → DBState × Nat
  | [], db, acc => (db, acc)
  | ev :: rest, db, acc =>
    ingest_go dup sport now rest (process_event dup sport now db ev).1
      (acc + (process_event dup sport now db ev).2)

/-- OddsFetcher.ingest_odds on an already-fetched feed payload
(odds_fetcher.py lines 72-186). -/
def ingest_odds (dup : OddsSnapshot → Bool) (sport : String) (now : Nat)
    (events : List Event) (db : DBState) : DBState × Nat :=
  if events.isEmpty then (db, 0)
  else ingest_go dup sport now events db 0

/-! ## Claim C9: remove_vig on already-fair probabilities -/

/-- Claim C9: remove_vig is the identity on already-fair inputs: whenever the
probabilities sum to exactly 1, remove_vig returns them unchanged and
reports zero vig removed. -/
theorem c9_remove_vig_identity (h a : ℚ) (d : Option ℚ)
    (hsum : h + a + d.getD 0 = 1) :
    remove_vig h a d = FairProbs.mk h a d 0 := by
  simp [remove_vig, calculate_vig, hsum]

/-- Witness for C9 at the concrete fair triple (1/2, 1/4, 1/4). -/
theorem c9_remove_vig_identity_witness :
    remove_vig (1/2) (1/4) (some (1/4)) = FairProbs.mk (1/2) (1/4) (some (1/4)) 0 :=
  c9_remove_vig_identity (1/2) (1/4) (some (1/4)) (by norm_num)

/-! ## Claim C5: Kelly stake bounds -/

/-- Claim C5: for win_probability in [0,1], any odds, bankroll ≥ 0 and
kelly_fraction ≥ 0, calculate_kelly_bet lies in [0, bankroll * MAX_BET_PERCENT];
it is exactly 0 when odds ≤ 1 or when the full-Kelly fraction
(b*p - q)/b is negative; being a total function it never raises. -/
theorem c5_kelly_bounds (p odds bankroll kf : ℚ)
    (_hp0 : 0 ≤ p) (_hp1 : p ≤ 1) (hb : 0 ≤ bankroll) (hk : 0 ≤ kf) :
    0 ≤ calculate_kelly_bet p odds bankroll kf ∧
    calculate_kelly_bet p odds bankroll kf ≤ bankroll * MAX_BET_PERCENT ∧
    (odds ≤ 1 → calculate_kelly_bet p odds bankroll kf = 0) ∧
    (((odds - 1) * p - (1 - p)) / (odds - 1) < 0 →
      calculate_kelly_bet p odds bankroll kf = 0) := by
  have hcap : 0 ≤ bankroll * MAX_BET_PERCENT :=
    mul_nonneg hb (by norm_num [MAX_BET_PERCENT])
  unfold calculate_kelly_bet
  by_cases hcond : odds - 1 ≤ 0 ∨ odds ≤ 1
  · simp only [if_pos hcond]
    exact ⟨le_refl 0, hcap, fun _ => by trivial, fun _ => by trivial⟩
  · simp only [if_neg hcond]
    push_neg at hcond
    refine ⟨le_max_left 0 _, max_le hcap (min_le_right _ _), ?_, ?_⟩
    · intro hle
      exact absurd hle (by linarith [hcond.2])
    · intro hneg
      have hfk : ((odds - 1) * p - (1 - p)) / (odds - 1) * kf ≤ 0 :=
        mul_nonpos_iff.mpr (Or.inr ⟨le_of_lt hneg, hk⟩)
      have h0 : max 0 (((odds - 1) * p - (1 - p)) / (odds - 1) * kf) = 0 :=
        max_eq_left hfk
      rw [h0, mul_zero]
      rw [min_eq_left hcap, max_self]

/-- Witness for C5 at the spec's worked example
(p = 0.6, odds = 1.8, bankroll = 1000, quarter Kelly). -/
theorem c5_kelly_bounds_witness :
    0 ≤ calculate_kelly_bet (3/5) (9/5) 1000 (1/4) ∧
    calculate_kelly_bet (3/5) (9/5) 1000 (1/4) ≤ 1000 * MAX_BET_PERCENT ∧
    ((9/5 : ℚ) ≤ 1 → calculate_kelly_bet (3/5) (9/5) 1000 (1/4) = 0) ∧
    ((((9/5 : ℚ) - 1) * (3/5) - (1 - 3/5)) / ((9/5 : ℚ) - 1) < 0 →
      calculate_kelly_bet (3/5) (9/5) 1000 (1/4) = 0) :=
  c5_kelly_bounds (3/5) (9/5) 1000 (1/4)
    (by norm_num) (by norm_num) (by norm_num) (by norm_num)

/-! ## Claim C10: edge monotone in offered odds -/

/-- Claim C10: with a fixed consensus probability p > 0 for an outcome
(fair odds 1/p as computed by identify_soft_book_discrepancies), the edge
(offered_odds / fair_odds - 1) * 100 is monotonically non-decreasing in the
offered odds; hence raising a soft book's offered odds never un-flags a
(bookmaker, outcome) pair at the same min_edge_percent threshold. -/
theorem c10_edge_monotone (p o1 o2 minE : ℚ) (hp : 0 < p) (h12 : o1 ≤ o2) :
    edge_percent_calc (1/p) o1 ≤ edge_percent_calc (1/p) o2 ∧
    (minE ≤ edge_percent_calc (1/p) o1 → minE ≤ edge_percent_calc (1/p) o2) := by
  have hmono : edge_percent_calc (1/p) o1 ≤ edge_percent_calc (1/p) o2 := by
    unfold edge_percent_calc
    simp only [one_div, div_eq_mul_inv, one_mul, inv_inv]
    have := mul_le_mul_of_nonneg_right h12 hp.le
    nlinarith
  exact ⟨hmono, fun h => le_trans h hmono⟩

/-- Witness for C10 at consensus probability 0.6, offered odds raised from
1.8 to 2.0, threshold 5 percent. -/
theorem c10_edge_monotone_witness :
    edge_percent_calc (1/(3/5)) (9/5) ≤ edge_percent_calc (1/(3/5)) 2 ∧
    ((5 : ℚ) ≤ edge_percent_calc (1/(3/5)) (9/5) →
      (5 : ℚ) ≤ edge_percent_calc (1/(3/5)) 2) :=
  c10_edge_monotone (3/5) (9/5) 2 5 (by norm_num) (by norm_num)

/-! ## Helper lemmas about the snapshot query and the consensus aggregation -/

lemma mem_insert_desc {x s : OddsSnapshot} {l : List OddsSnapshot} :
    x ∈ insert_desc s l ↔ x = s ∨ x ∈ l := by
  induction l with
  | nil => simp [insert_desc]
  | cons t ts ih =>
    simp only [insert_desc]
    split
    · simp
    · simp [ih]; tauto

lemma mem_sort_desc {x : OddsSnapshot} {l : List OddsSnapshot} :
    x ∈ sort_desc l ↔ x ∈ l := by
  induction l with
  | nil => simp [sort_desc]
  | cons s ss ih => simp [sort_desc, mem_insert_desc, ih]

lemma mem_get_latest {s : OddsSnapshot} {store : List OddsSnapshot} {gid : Nat}
    (h : s ∈ get_latest_snapshot_for_game store gid) :
    s ∈ store ∧ s.game_id = gid := by
  unfold get_latest_snapshot_for_game at h
  rw [mem_sort_desc] at h
  have hf := List.mem_filter.mp h
  exact ⟨hf.1, by simpa using hf.2⟩

lemma consensus_agg_none (s0 : OddsSnapshot) (rest : List OddsSnapshot)
    (b : Bool) (hd : s0.draw_implied_prob = none) :
    consensus_agg s0 rest b = .ok (some (Consensus.mk
      (((s0 :: rest).map (fun s => s.home_implied_prob)).sum /
        ((s0 :: rest).length : ℚ))
      (((s0 :: rest).map (fun s => s.away_implied_prob)).sum /
        ((s0 :: rest).length : ℚ))
      none (s0 :: rest).length (if b then "sharp" else "all"))) := by
  simp [consensus_agg, hd]

lemma consensus_agg_some_all (s0 : OddsSnapshot) (rest : List OddsSnapshot)
    (b : Bool) (d : ℚ) (hd : s0.draw_implied_prob = some d)
    (hall : (s0 :: rest).all (fun s => s.draw_implied_prob.isSome) = true) :
    consensus_agg s0 rest b = .ok (some (Consensus.mk
      (((s0 :: rest).map (fun s => s.home_implied_prob)).sum /
        ((s0 :: rest).length : ℚ))
      (((s0 :: rest).map (fun s => s.away_implied_prob)).sum /
        ((s0 :: rest).length : ℚ))
      (some (((s0 :: rest).map (fun s => s.draw_implied_prob.getD 0)).sum /
        ((s0 :: rest).length : ℚ)))
      (s0 :: rest).length (if b then "sharp" else "all"))) := by
  simp [consensus_agg, hd, hall]

lemma consensus_agg_some_err (s0 : OddsSnapshot) (rest : List OddsSnapshot)
    (b : Bool) (d : ℚ) (hd : s0.draw_implied_prob = some d)
    (hall : (s0 :: rest).all (fun s => s.draw_implied_prob.isSome) = false) :
    consensus_agg s0 rest b = .error () := by
  simp [consensus_agg, hd, hall]

lemma consensus_agg_ok {s0 : OddsSnapshot} {rest : List OddsSnapshot}
    {b : Bool} {c : Consensus}
    (h : consensus_agg s0 rest b = .ok (some c)) :
    c.home_probability =
      ((s0 :: rest).map (fun s => s.home_implied_prob)).sum /
        ((s0 :: rest).length : ℚ) ∧
    c.away_probability =
      ((s0 :: rest).map (fun s => s.away_implied_prob)).sum /
        ((s0 :: rest).length : ℚ) ∧
    c.draw_probability.isSome = s0.draw_implied_prob.isSome ∧
    ((s0 :: rest).all (fun s => s.draw_implied_prob.isSome) = true →
      c.draw_probability =
        some (((s0 :: rest).map (fun s => s.draw_implied_prob.getD 0)).sum /
          ((s0 :: rest).length : ℚ))) := by
  cases hd : s0.draw_implied_prob with
  | none =>
    rw [consensus_agg_none s0 rest b hd] at h
    simp only [Except.ok.injEq, Option.some.injEq] at h
    subst h
    refine ⟨rfl, rfl, by simp [hd], ?_⟩
    intro hall
    have h0 := List.all_eq_true.mp hall s0 (by simp)
    simp [hd] at h0
  | some d =>
    by_cases hall : (s0 :: rest).all (fun s => s.draw_implied_prob.isSome) = true
    · rw [consensus_agg_some_all s0 rest b d hd hall] at h
      simp only [Except.ok.injEq, Option.some.injEq] at h
      subst h
      exact ⟨rfl, rfl, by simp [hd], fun _ => rfl⟩
    · have hall2 : (s0 :: rest).all (fun s => s.draw_implied_prob.isSome) = false := by
        simpa using hall
      rw [consensus_agg_some_err s0 rest b d hd hall2] at h
      exact absurd h (by simp)

lemma consensus_agg_error {s0 : OddsSnapshot} {rest : List OddsSnapshot}
    {b : Bool} :
    consensus_agg s0 rest b = .error () ↔
      s0.draw_implied_prob.isSome = true ∧
      (s0 :: rest).all (fun s => s.draw_implied_prob.isSome) = false := by
  cases hd : s0.draw_implied_prob with
  | none =>
    rw [consensus_agg_none s0 rest b hd]
    simp [hd]
  | some d =>
    by_cases hall : (s0 :: rest).all (fun s => s.draw_implied_prob.isSome) = true
    · rw [consensus_agg_some_all s0 rest b d hd hall]
      simp [hd, hall]
    · have hall2 : (s0 :: rest).all (fun s => s.draw_implied_prob.isSome) = false := by
        simpa using hall
      rw [consensus_agg_some_err s0 rest b d hd hall2]
      simp [hd, hall2]

lemma consensus_core_ok_some {snapshots : List OddsSnapshot} {c : Consensus}
    (h : consensus_core snapshots true = .ok (some c)) :
    ∃ s0 rest, snapshots.filter is_sharp = s0 :: rest ∧
      consensus_agg s0 rest true = .ok (some c) := by
  unfold consensus_core at h
  cases snapshots with
  | nil => simp at h
  | cons x xs =>
    simp only [if_pos rfl] at h
    cases hf : (x :: xs).filter is_sharp with
    | nil => rw [hf] at h; simp at h
    | cons s0 rest => rw [hf] at h; exact ⟨s0, rest, rfl, h⟩

lemma consensus_core_error_iff {snapshots : List OddsSnapshot} :
    consensus_core snapshots true = .error () ↔
      ∃ s0 rest, snapshots.filter is_sharp = s0 :: rest ∧
        consensus_agg s0 rest true = .error () := by
  constructor
  · intro h
    unfold consensus_core at h
    cases snapshots with
    | nil => simp at h
    | cons x xs =>
      simp only [if_pos rfl] at h
      cases hf : (x :: xs).filter is_sharp with
      | nil => rw [hf] at h; simp at h
      | cons s0 rest => rw [hf] at h; exact ⟨s0, rest, rfl, h⟩
  · rintro ⟨s0, rest, hf, ha⟩
    unfold consensus_core
    cases snapshots with
    | nil => simp at hf
    | cons x xs =>
      simp only [if_pos rfl]
      rw [hf]
      exact ha

/-! ## Claim C1: consensus probabilities are raw averages, not de-vigged -/

/-- Definition following the claim's words: the spec's de-vigging formula
applied to the averaged implied probabilities of a two-outcome market; the
averaged home probability divided by (1 + vig), where vig is the sum of
the averaged outcome probabilities minus 1, returned unchanged when vig is
exactly zero. -/
def claimed_devig_home (snaps : List OddsSnapshot) : ℚ :=
  let n : ℚ := (snaps.length : ℚ)
  let avg_home := (snaps.map (fun s => s.home_implied_prob)).sum / n
  let avg_away := (snaps.map (fun s => s.away_implied_prob)).sum / n
  let vig := (avg_home + avg_away) - 1
  if vig = 0 then avg_home else avg_home / (1 + vig)

/-- A store with a single sharp snapshot at decimal odds 5/3 - 5/3:
implied probabilities 0.6 and 0.6, hence vig 0.2. -/
def c1_store : List OddsSnapshot :=
  [OddsSnapshot.mk 1 "pinnacle" (5/3) (5/3) none (3/5) (3/5) none 0]

/-- Counterexample to claim C1: on a sharp snapshot with vig 0.2 the
consensus returns the raw averaged implied probability 0.6, not the
claimed de-vigged fair probability 0.5. -/
theorem c1_counterexample :
    get_market_consensus c1_store 1 true =
      .ok (some (Consensus.mk (3/5) (3/5) none 1 "sharp")) ∧
    claimed_devig_home c1_store = 1/2 ∧
    (Consensus.mk (3/5) (3/5) none 1 "sharp").home_probability ≠
      claimed_devig_home c1_store := by
  refine ⟨?_, ?_, ?_⟩
  · simp [get_market_consensus, consensus_core, consensus_agg,
      get_latest_snapshot_for_game, sort_desc, insert_desc, is_sharp,
      SHARP_BOOKS, c1_store, List.filter]
  · norm_num [claimed_devig_home, c1_store]
  · norm_num [claimed_devig_home, c1_store]

/-- Claim C1 amended: for every game with at least one sharp snapshot, the
per-outcome probability returned by get_market_consensus with
use_sharp_only is the raw arithmetic mean of that outcome's implied
probability across the matching sharp snapshots; no division by (1 + vig)
is applied, so the value agrees with the claimed de-vigged probability
exactly when the vig of the averaged probabilities is zero. -/
theorem c1_amended (store : List OddsSnapshot) (gid : Nat) (c : Consensus)
    (h : get_market_consensus store gid true = .ok (some c)) :
    c.home_probability =
      (((get_latest_snapshot_for_game store gid).filter is_sharp).map
        (fun s => s.home_implied_prob)).sum /
        (((get_latest_snapshot_for_game store gid).filter is_sharp).length : ℚ) ∧
    c.away_probability =
      (((get_latest_snapshot_for_game store gid).filter is_sharp).map
        (fun s => s.away_implied_prob)).sum /
        (((get_latest_snapshot_for_game store gid).filter is_sharp).length : ℚ) ∧
    (c.home_probability + c.away_probability - 1 = 0 →
      c.home_probability =
        claimed_devig_home ((get_latest_snapshot_for_game store gid).filter is_sharp)) := by
  unfold get_market_consensus at h
  obtain ⟨s0, rest, hf, ha⟩ := consensus_core_ok_some h
  obtain ⟨e1, e2, _, _⟩ := consensus_agg_ok ha
  rw [hf]
  refine ⟨e1, e2, ?_⟩
  intro hv
  rw [e1, e2] at hv
  unfold claimed_devig_home
  rw [if_pos hv]
  exact e1

/-- Witness for the amended C1 at the concrete single-snapshot store. -/
theorem c1_amended_witness :
    (Consensus.mk (3/5) (3/5) none 1 "sharp").home_probability =
      (((get_latest_snapshot_for_game c1_store 1).filter is_sharp).map
        (fun s => s.home_implied_prob)).sum /
        (((get_latest_snapshot_for_game c1_store 1).filter is_sharp).length : ℚ) ∧
    (Consensus.mk (3/5) (3/5) none 1 "sharp").away_probability =
      (((get_latest_snapshot_for_game c1_store 1).filter is_sharp).map
        (fun s => s.away_implied_prob)).sum /
        (((get_latest_snapshot_for_game c1_store 1).filter is_sharp).length : ℚ) ∧
    ((Consensus.mk (3/5) (3/5) none 1 "sharp").home_probability +
        (Consensus.mk (3/5) (3/5) none 1 "sharp").away_probability - 1 = 0 →
      (Consensus.mk (3/5) (3/5) none 1 "sharp").home_probability =
        claimed_devig_home ((get_latest_snapshot_for_game c1_store 1).filter is_sharp)) :=
  c1_amended c1_store 1 (Consensus.mk (3/5) (3/5) none 1 "sharp")
    (by
      simp [get_market_consensus, consensus_core, consensus_agg,
        get_latest_snapshot_for_game, sort_desc, insert_desc, is_sharp,
        SHARP_BOOKS, c1_store, List.filter])

/-! ## Claim C4: draw probability presence and the mixed-draw TypeError -/

/-- Claim C4 amended: draw presence in the consensus is decided by the
FIRST snapshot of the descending-time sharp list (not by "at least one"):
draw_probability is present iff that first snapshot carries a draw
probability; when every matching sharp snapshot carries one it equals
their arithmetic mean; and the call raises (TypeError) exactly when the
first snapshot carries a draw probability but some other matching sharp
snapshot does not. -/
theorem c4_amended (store : List OddsSnapshot) (gid : Nat) :
    (∀ c, get_market_consensus store gid true = .ok (some c) →
      c.draw_probability.isSome =
        ((get_latest_snapshot_for_game store gid).filter is_sharp).head?.elim false
          (fun s0 => s0.draw_implied_prob.isSome) ∧
      (((get_latest_snapshot_for_game store gid).filter is_sharp).all
          (fun s => s.draw_implied_prob.isSome) = true →
        c.draw_probability = some
          ((((get_latest_snapshot_for_game store gid).filter is_sharp).map
            (fun s => s.draw_implied_prob.getD 0)).sum /
            (((get_latest_snapshot_for_game store gid).filter is_sharp).length : ℚ)))) ∧
    (get_market_consensus store gid true = .error () ↔
      ((get_latest_snapshot_for_game store gid).filter is_sharp).head?.elim false
        (fun s0 => s0.draw_implied_prob.isSome) = true ∧
      ((get_latest_snapshot_for_game store gid).filter is_sharp).all
        (fun s => s.draw_implied_prob.isSome) = false) := by
  constructor
  · intro c h
    unfold get_market_consensus at h
    obtain ⟨s0, rest, hf, ha⟩ := consensus_core_ok_some h
    obtain ⟨_, _, h3, h4⟩ := consensus_agg_ok ha
    rw [hf]
    exact ⟨by simpa using h3, fun hall => h4 hall⟩
  · constructor
    · intro h
      unfold get_market_consensus at h
      obtain ⟨s0, rest, hf, ha⟩ := consensus_core_error_iff.mp h
      have he := consensus_agg_error.mp ha
      rw [hf]
      simpa using he
    · rintro ⟨h1, h2⟩
      unfold get_market_consensus
      cases hf : (get_latest_snapshot_for_game store gid).filter is_sharp with
      | nil => rw [hf] at h1; simp at h1
      | cons s0 rest =>
        rw [hf] at h1 h2
        exact consensus_core_error_iff.mpr
          ⟨s0, rest, hf, consensus_agg_error.mpr ⟨by simpa using h1, h2⟩⟩

/-- A sharp snapshot carrying a draw price (betfair, earlier time). -/
def c4_sdraw : OddsSnapshot :=
  OddsSnapshot.mk 1 "betfair" 3 3 (some 3) (1/3) (1/3) (some (1/3)) 1

/-- Store A: the most recent sharp snapshot (pinnacle, time 2) has no draw
price, while the earlier betfair snapshot does. -/
def c4_storeA : List OddsSnapshot :=
  [c4_sdraw, OddsSnapshot.mk 1 "pinnacle" 2 2 none (1/2) (1/2) none 2]

/-- Store B: the most recent sharp snapshot has a draw price but the other
sharp snapshot does not, so the draw averaging raises TypeError. -/
def c4_storeB : List OddsSnapshot :=
  [OddsSnapshot.mk 1 "pinnacle" 2 2 (some 4) (1/2) (1/2) (some (1/4)) 5,
   OddsSnapshot.mk 1 "betfair" 2 2 none (1/2) (1/2) none 1]

/-- Counterexample to claim C4: in store A a matching sharp snapshot
carries a draw price, yet the returned draw probability is absent (so the
claimed "present iff at least one carries a draw price" fails); and in
store B the call raises instead of never raising. -/
theorem c4_counterexample :
    get_market_consensus c4_storeA 1 true =
      .ok (some (Consensus.mk (5/12) (5/12) none 2 "sharp")) ∧
    c4_sdraw ∈ c4_storeA ∧
    c4_sdraw.game_id = 1 ∧
    is_sharp c4_sdraw = true ∧
    c4_sdraw.draw_implied_prob.isSome = true ∧
    get_market_consensus c4_storeB 1 true = .error () := by
  refine ⟨?_, by simp [c4_storeA], by simp [c4_sdraw],
    by simp [is_sharp, SHARP_BOOKS, c4_sdraw], by simp [c4_sdraw], ?_⟩
  · simp [get_market_consensus, consensus_core, consensus_agg,
      get_latest_snapshot_for_game, sort_desc, insert_desc, is_sharp,
      SHARP_BOOKS, c4_storeA, c4_sdraw, List.filter]
    norm_num
  · simp [get_market_consensus, consensus_core, consensus_agg,
      get_latest_snapshot_for_game, sort_desc, insert_desc, is_sharp,
      SHARP_BOOKS, c4_storeB, List.filter]

/-- Store for the C4 witness: both sharp snapshots carry draw prices. -/
def c4w_store : List OddsSnapshot :=
  [OddsSnapshot.mk 1 "pinnacle" 2 2 (some 4) (1/2) (1/2) (some (1/4)) 1,
   OddsSnapshot.mk 1 "betfair" 3 3 (some 3) (1/3) (1/3) (some (1/3)) 0]

/-- Witness for the amended C4: with every sharp snapshot carrying a draw
price, the draw probability is present and equals the mean 7/24. -/
theorem c4_amended_witness :
    (Consensus.mk (5/12) (5/12) (some (7/24)) 2 "sharp").draw_probability.isSome =
      ((get_latest_snapshot_for_game c4w_store 1).filter is_sharp).head?.elim false
        (fun s0 => s0.draw_implied_prob.isSome) ∧
    (Consensus.mk (5/12) (5/12) (some (7/24)) 2 "sharp").draw_probability =
      some (7/24) := by
  have heval : get_market_consensus c4w_store 1 true =
      .ok (some (Consensus.mk (5/12) (5/12) (some (7/24)) 2 "sharp")) := by
    simp [get_market_consensus, consensus_core, consensus_agg,
      get_latest_snapshot_for_game, sort_desc, insert_desc, is_sharp,
      SHARP_BOOKS, c4w_store, List.filter]
    norm_num
  have h := (c4_amended c4w_store 1).1 _ heval
  exact ⟨h.1, by simp⟩

/-! ## Claim C6: no sharp snapshots means explicit no-data, not an error -/

/-- Claim C6: if the store holds no sharp-bookmaker snapshot for the game,
get_market_consensus returns the explicit absent value (.ok none) and
identify_soft_book_discrepancies returns the empty list, with no exception
and no zero-valued probability produced. -/
theorem c6_no_sharp_no_data (store : List OddsSnapshot) (gid : Nat) (minE : ℚ)
    (hno : ∀ s ∈ store, s.game_id = gid → is_sharp s = false) :
    get_market_consensus store gid true = .ok none ∧
    identify_soft_book_discrepancies store gid minE = .ok [] := by
  have hfilter : (get_latest_snapshot_for_game store gid).filter is_sharp = [] := by
    rw [List.filter_eq_nil_iff]
    intro a ha
    obtain ⟨h1, h2⟩ := mem_get_latest ha
    simp [hno a h1 h2]
  have hcons : consensus_core (get_latest_snapshot_for_game store gid) true = .ok none := by
    cases hl : get_latest_snapshot_for_game store gid with
    | nil => rfl
    | cons x xs =>
      rw [hl] at hfilter
      simp [consensus_core, hfilter]
  refine ⟨hcons, ?_⟩
  unfold identify_soft_book_discrepancies identify_core
  rw [hcons]

/-- Store holding only a soft-book snapshot for game 1. -/
def c6_store : List OddsSnapshot :=
  [OddsSnapshot.mk 1 "draftkings" 2 2 none (1/2) (1/2) none 0]

/-- Witness for C6 at a store with a single soft-book snapshot. -/
theorem c6_no_sharp_no_data_witness :
    get_market_consensus c6_store 1 true = .ok none ∧
    identify_soft_book_discrepancies c6_store 1 5 = .ok [] :=
  c6_no_sharp_no_data c6_store 1 5 (by decide)

/-! ## Claim C7: ValueBet internal consistency -/

lemma soft_checks_shape {c : Consensus} {minE : ℚ} {snap : OddsSnapshot}
    {d : Discrepancy} (h : d ∈ soft_checks c minE snap) :
    (d.selection = "Home" ∧ d.fair_odds = 1 / c.home_probability ∧
      d.implied_prob_consensus = c.home_probability ∧
      d.offered_odds = snap.home_odds ∧
      d.edge_percent = edge_percent_calc (1 / c.home_probability) snap.home_odds) ∨
    (d.selection = "Away" ∧ d.fair_odds = 1 / c.away_probability ∧
      d.implied_prob_consensus = c.away_probability ∧
      d.offered_odds = snap.away_odds ∧
      d.edge_percent = edge_percent_calc (1 / c.away_probability) snap.away_odds) := by
  unfold soft_checks at h
  rw [List.mem_append] at h
  cases h with
  | inl h =>
    left
    split at h
    · rw [List.mem_singleton] at h
      subst h
      exact ⟨rfl, rfl, rfl, rfl, rfl⟩
    · simp at h
  | inr h =>
    right
    split at h
    · rw [List.mem_singleton] at h
      subst h
      exact ⟨rfl, rfl, rfl, rfl, rfl⟩
    · simp at h

lemma mk_value_bet_some {g : Game} {c : Consensus} {minP : ℚ}
    {d : Discrepancy} {vb : ValueBet} (h : mk_value_bet g c minP d = some vb) :
    vb.fair_odds = d.fair_odds ∧ vb.edge_percent = d.edge_percent ∧
    vb.offered_odds = d.offered_odds ∧ vb.betting_selection = d.selection ∧
    vb.my_probability =
      (if d.selection = "Home" then c.home_probability else c.away_probability) := by
  unfold mk_value_bet at h
  split at h
  · rename_i hsel
    split at h
    · simp at h
    · simp only [Option.some.injEq] at h
      subst h
      exact ⟨rfl, rfl, rfl, rfl, by rw [if_pos hsel]⟩
  · rename_i hsel
    split at h
    · simp at h
    · simp only [Option.some.injEq] at h
      subst h
      exact ⟨rfl, rfl, rfl, rfl, by rw [if_neg hsel]⟩

lemma identify_core_mem {snapshots : List OddsSnapshot} {minE : ℚ}
    {ds : List Discrepancy} {d : Discrepancy} {c : Consensus}
    (hc : consensus_core snapshots true = .ok (some c))
    (h : identify_core snapshots minE = .ok ds) (hd : d ∈ ds) :
    ∃ snap, d ∈ soft_checks c minE snap := by
  unfold identify_core at h
  rw [hc] at h
  split at h
  · rename_i heq
    simp at heq
  · rename_i heq
    simp at heq
  · rename_i cc heq
    simp only [Except.ok.injEq, Option.some.injEq] at heq
    subst heq
    split at h
    · simp only [Except.ok.injEq] at h
      subst h
      simp at hd
    · split at h
      · simp at h
      · simp only [Except.ok.injEq] at h
        subst h
        obtain ⟨snap, _, hmem⟩ := List.mem_flatMap.mp hd
        exact ⟨snap, hmem⟩

/-- Claim C7: every ValueBet built by a successful find_value_bets run is
internally consistent at construction: fair_odds = 1 / my_probability and
edge_percent = (offered_odds / fair_odds - 1) * 100, my_probability being
the consensus probability of the selected outcome. -/
theorem c7_value_bets_consistent (db : DBState) (now : Int)
    (minE minP : ℚ) (bets : List ValueBet) (vb : ValueBet)
    (hrun : find_value_bets db now minE minP = .ok bets) (hmem : vb ∈ bets) :
    vb.fair_odds = 1 / vb.my_probability ∧
    vb.edge_percent = (vb.offered_odds / vb.fair_odds - 1) * 100 := by
  unfold find_value_bets at hrun
  revert bets
  induction db.games.filter (fun g => g.result.isNone && decide (now < g.commence_time)) with
  | nil =>
    intro bets hrun hmem
    simp only [find_value_bets_go, Except.ok.injEq] at hrun
    subst hrun
    simp at hmem
  | cons g rest ih =>
    intro bets hrun hmem
    unfold find_value_bets_go at hrun
    cases hc : get_market_consensus db.snapshots g.id true with
    | error e => rw [hc] at hrun; simp at hrun
    | ok oc =>
      rw [hc] at hrun
      cases oc with
      | none => exact ih bets hrun hmem
      | some c =>
        cases hi : identify_soft_book_discrepancies db.snapshots g.id minE with
        | error e => rw [hi] at hrun; simp at hrun
        | ok discs =>
          rw [hi] at hrun
          cases hr : find_value_bets_go db.snapshots minE minP rest with
          | error e => rw [hr] at hrun; simp at hrun
          | ok more =>
            rw [hr] at hrun
            simp only [Except.ok.injEq] at hrun
            subst hrun
            rw [List.mem_append] at hmem
            cases hmem with
            | inr hmm => exact ih more hr hmm
            | inl hmm =>
              obtain ⟨d, hdmem, hmk⟩ := List.mem_filterMap.mp hmm
              have hc2 : consensus_core (get_latest_snapshot_for_game db.snapshots g.id)
                  true = .ok (some c) := hc
              obtain ⟨snap, hsc⟩ := identify_core_mem hc2 hi hdmem
              obtain ⟨hfo, hep, hoo, _, hmy⟩ := mk_value_bet_some hmk
              cases soft_checks_shape hsc with
              | inl hH =>
                rw [hH.1] at hmy
                simp only [if_pos] at hmy
                constructor
                · rw [hfo, hH.2.1, hmy]
                · rw [hep, hH.2.2.2.2, hoo, hH.2.2.2.1, hfo, hH.2.1, edge_percent_calc]
              | inr hA =>
                rw [hA.1] at hmy
                have hne : ("Away" : String) ≠ "Home" := by decide
                rw [if_neg hne] at hmy
                constructor
                · rw [hfo, hA.2.1, hmy]
                · rw [hep, hA.2.2.2.2, hoo, hA.2.2.2.1, hfo, hA.2.1, edge_percent_calc]

/-- Game row for the C7 witness run. -/
def c7_game : Game := Game.mk 1 "evt1" "NBA" "Lakers" "Celtics" 100 none

/-- Store for the C7 witness run: one sharp snapshot (consensus 0.6 / 0.4)
and one soft snapshot offering home odds 1.8 (edge 8 percent). -/
def c7_db : DBState := DBState.mk [c7_game]
  [OddsSnapshot.mk 1 "pinnacle" (5/3) (5/2) none (3/5) (2/5) none 0,
   OddsSnapshot.mk 1 "draftkings" (9/5) 2 none (5/9) (1/2) none 0] 2

/-- The single ValueBet produced by the C7 witness run. -/
def c7_vb : ValueBet := ValueBet.mk 1 "Lakers" "Celtics" "Home" (3/5) (3/5)
  (9/5) (5/3) 8 "draftkings" (1/4) 25

/-- Witness for C7: the concrete scan yields exactly one ValueBet, and it
satisfies both consistency identities. -/
theorem c7_value_bets_consistent_witness :
    find_value_bets c7_db 0 5 (7/20) = .ok [c7_vb] ∧
    c7_vb.fair_odds = 1 / c7_vb.my_probability ∧
    c7_vb.edge_percent = (c7_vb.offered_odds / c7_vb.fair_odds - 1) * 100 := by
  have hrun : find_value_bets c7_db 0 5 (7/20) = .ok [c7_vb] := by
    simp [find_value_bets, find_value_bets_go, c7_db, c7_game, c7_vb,
      get_market_consensus, consensus_core, consensus_agg,
      get_latest_snapshot_for_game, sort_desc, insert_desc, is_sharp, is_soft,
      SHARP_BOOKS, SOFT_BOOKS, identify_soft_book_discrepancies, identify_core,
      soft_checks, edge_percent_calc, mk_value_bet, calculate_kelly_bet,
      MAX_BET_PERCENT, KELLY_FRACTION, DEFAULT_BANKROLL, List.filter, List.map,
      List.sum, List.flatMap, List.filterMap, List.isEmpty]
    norm_num [mk_value_bet, calculate_kelly_bet, MAX_BET_PERCENT,
      KELLY_FRACTION, DEFAULT_BANKROLL, List.filterMap]
  exact ⟨hrun,
    c7_value_bets_consistent c7_db 0 5 (7/20) [c7_vb] c7_vb hrun (by simp)⟩

/-! ## Claims C2, C3, C8: ingestion invariants -/

/-- Well-formedness of a stored snapshot as produced by ingest_odds:
nonzero decimal odds, implied probabilities exactly their reciprocals,
and the (0,1) range whenever the odds exceed 1. -/
def snap_wellformed (s : OddsSnapshot) : Prop :=
  s.home_odds ≠ 0 ∧ s.home_implied_prob = 1 / s.home_odds ∧
  s.away_odds ≠ 0 ∧ s.away_implied_prob = 1 / s.away_odds ∧
  (1 < s.home_odds → 0 < s.home_implied_prob ∧ s.home_implied_prob < 1) ∧
  (1 < s.away_odds → 0 < s.away_implied_prob ∧ s.away_implied_prob < 1)

/-- At most one Game row per external identifier. -/
def games_dedup (db : DBState) : Prop :=
  db.games.Pairwise (fun g1 g2 => g1.odds_api_id ≠ g2.odds_api_id)

lemma truthyQ_getD_ne {o : Option ℚ} (h : truthyQ o = true) : o.getD 0 ≠ 0 := by
  cases o with
  | none => simp [truthyQ] at h
  | some q => simpa [truthyQ] using h

lemma one_div_unit {q : ℚ} (hq : 1 < q) : 0 < 1/q ∧ 1/q < 1 := by
  have h0 : (0:ℚ) < q := lt_trans zero_lt_one hq
  exact ⟨by positivity, (div_lt_one h0).mpr hq⟩

lemma process_bookmaker_wellformed {ht aw : String} {gid now : Nat}
    {bd : BookmakerData} {s : OddsSnapshot}
    (h : process_bookmaker ht aw gid now bd = some s) : snap_wellformed s := by
  unfold process_bookmaker at h
  split at h
  · simp at h
  · split at h
    · simp at h
    · split at h
      · simp at h
      · split at h
        · simp at h
        · split at h
          · simp at h
          · split at h
            · rename_i hcond
              simp only [Bool.and_eq_true] at hcond
              obtain ⟨hth, hta⟩ := hcond
              simp only [Option.some.injEq] at h
              subst h
              unfold snap_wellformed
              refine ⟨truthyQ_getD_ne hth, rfl, truthyQ_getD_ne hta, rfl, ?_, ?_⟩
              · intro h1
                exact one_div_unit h1
              · intro h1
                exact one_div_unit h1
            · simp at h

lemma upsert_game_snapshots (db : DBState) (eid sport ht aw : String)
    (ct : Int) :
    (upsert_game db eid sport ht aw ct).1.snapshots = db.snapshots := by
  unfold upsert_game
  split <;> rfl

lemma upsert_game_snap_mem {db : DBState} {eid sport ht aw : String}
    {ct : Int} {s : OddsSnapshot}
    (hs : s ∈ (upsert_game db eid sport ht aw ct).1.snapshots) :
    s ∈ db.snapshots := by
  rw [upsert_game_snapshots] at hs
  exact hs

lemma upsert_game_mem (db : DBState) (eid sport ht aw : String) (ct : Int) :
    ∀ g ∈ db.games, g ∈ (upsert_game db eid sport ht aw ct).1.games := by
  unfold upsert_game
  split
  · exact fun g hg => hg
  · intro g hg
    simp only [List.mem_append]
    exact Or.inl hg

lemma upsert_game_dedup (db : DBState) (eid sport ht aw : String) (ct : Int)
    (h : games_dedup db) : games_dedup (upsert_game db eid sport ht aw ct).1 := by
  unfold games_dedup at *
  unfold upsert_game
  cases hf : db.games.find? (fun g => g.odds_api_id == eid) with
  | some g => exact h
  | none =>
    simp only []
    apply List.pairwise_append.mpr
    refine ⟨h, List.pairwise_singleton _ _, ?_⟩
    intro a ha b hb
    rw [List.mem_singleton] at hb
    subst hb
    have hne := List.find?_eq_none.mp hf a ha
    simpa using hne

lemma process_event_inv (dup : OddsSnapshot → Bool) (sport : String)
    (now : Nat) (db : DBState) (ev : Event) :
    (games_dedup db → games_dedup (process_event dup sport now db ev).1) ∧
    (∀ g ∈ db.games, g ∈ (process_event dup sport now db ev).1.games) ∧
    (∀ s ∈ (process_event dup sport now db ev).1.snapshots,
      s ∈ db.snapshots ∨ snap_wellformed s) := by
  unfold process_event
  split
  · split
    · exact ⟨fun h => h, fun g hg => hg, fun s hs => Or.inl hs⟩
    · split
      · exact ⟨fun h => upsert_game_dedup _ _ _ _ _ _ h,
          fun g hg => upsert_game_mem _ _ _ _ _ _ g hg,
          fun s hs => Or.inl (upsert_game_snap_mem hs)⟩
      · split
        · exact ⟨fun h => upsert_game_dedup _ _ _ _ _ _ h,
            fun g hg => upsert_game_mem _ _ _ _ _ _ g hg,
            fun s hs => Or.inl (upsert_game_snap_mem hs)⟩
        · refine ⟨fun h => upsert_game_dedup _ _ _ _ _ _ h,
            fun g hg => upsert_game_mem _ _ _ _ _ _ g hg, ?_⟩
          intro s hs
          cases List.mem_append.mp hs with
          | inl h1 => exact Or.inl (upsert_game_snap_mem h1)
          | inr h2 =>
            obtain ⟨bd, _, hpb⟩ := List.mem_filterMap.mp h2
            exact Or.inr (process_bookmaker_wellformed hpb)
  · exact ⟨fun h => h, fun g hg => hg, fun s hs => Or.inl hs⟩

lemma ingest_go_inv (dup : OddsSnapshot → Bool) (sport : String) (now : Nat) :
    ∀ (events : List Event) (db : DBState) (acc : Nat),
    (games_dedup db → games_dedup (ingest_go dup sport now events db acc).1) ∧
    (∀ g ∈ db.games, g ∈ (ingest_go dup sport now events db acc).1.games) ∧
    (∀ s ∈ (ingest_go dup sport now events db acc).1.snapshots,
      s ∈ db.snapshots ∨ snap_wellformed s) := by
  intro events
  induction events with
  | nil => exact fun db acc => ⟨fun h => h, fun g hg => hg, fun s hs => Or.inl hs⟩
  | cons ev rest ih =>
    intro db acc
    unfold ingest_go
    refine ⟨?_, ?_, ?_⟩
    · intro h
      exact (ih _ _).1 ((process_event_inv dup sport now db ev).1 h)
    · intro g hg
      exact (ih _ _).2.1 g ((process_event_inv dup sport now db ev).2.1 g hg)
    · intro s hs
      cases (ih _ _).2.2 s hs with
      | inl h1 => exact (process_event_inv dup sport now db ev).2.2 s h1
      | inr h2 => exact Or.inr h2

/-- Claim C2 amended: a bookmaker block whose home or away price is
missing or ZERO (Python falsiness, not "non-positive") stores no snapshot;
every snapshot stored by ingest_odds has nonzero home and away odds with
implied probabilities exactly 1/odds, and those lie in (0,1) whenever the
odds exceed 1.  A negative price is NOT skipped and yields a negative
implied probability. -/
theorem c2_amended (dup : OddsSnapshot → Bool) (sport : String) (now : Nat)
    (events : List Event) (db : DBState) :
    (∀ s ∈ (ingest_odds dup sport now events db).1.snapshots,
      s ∈ db.snapshots ∨ snap_wellformed s) ∧
    (∀ (ht aw : String) (gid : Nat) (bd : BookmakerData) (m : Market),
      bd.markets.head? = some m →
      (lookup_price m.outcomes ht = none ∨ lookup_price m.outcomes ht = some 0 ∨
       lookup_price m.outcomes aw = none ∨ lookup_price m.outcomes aw = some 0) →
      process_bookmaker ht aw gid now bd = none) := by
  constructor
  · unfold ingest_odds
    split
    · exact fun s hs => Or.inl hs
    · exact (ingest_go_inv dup sport now events db 0).2.2
  · intro ht aw gid bd m hm hbad
    unfold process_bookmaker
    cases hk : bd.key with
    | none => rfl
    | some key =>
      cases hmkt : bd.markets with
      | nil => rw [hmkt] at hm; simp at hm
      | cons m2 tl =>
        rw [hmkt] at hm
        simp only [List.head?_cons, Option.some.injEq] at hm
        subst hm
        have hfalse : (truthyQ (lookup_price m2.outcomes ht) &&
            truthyQ (lookup_price m2.outcomes aw)) = false := by
          rcases hbad with h | h | h | h <;> simp [h, truthyQ]
        simp [hfalse]

/-- Empty initial store (autoincrement starts at 1). -/
def empty_db : DBState := DBState.mk [] [] 1

/-- Feed event whose pinnacle block quotes a NEGATIVE home price. -/
def c2_event : Event := Event.mk (some "E2") (some "A") (some "B") (some 50)
  [BookmakerData.mk (some "pinnacle")
    [Market.mk [Outcome.mk (some "A") (some (-2)), Outcome.mk (some "B") (some 2)]]]

/-- Counterexample to claim C2: a block with a non-positive (negative)
home price is NOT skipped: a snapshot is stored, and its home implied
probability is -1/2, which does not lie in (0, 1). -/
theorem c2_counterexample :
    (ingest_odds (fun _ => false) "soccer_epl" 0 [c2_event] empty_db).1.snapshots =
      [OddsSnapshot.mk 1 "pinnacle" (-2) 2 none (-(1/2)) (1/2) none 0] ∧
    (OddsSnapshot.mk 1 "pinnacle" (-2) 2 none (-(1/2)) (1/2) none 0).home_implied_prob < 0 := by
  constructor
  · simp [ingest_odds, ingest_go, process_event, upsert_game, process_bookmaker,
      lookup_price, truthyQ, ALL_BOOKS, SHARP_BOOKS, SOFT_BOOKS, c2_event,
      empty_db, List.filterMap, List.isEmpty, List.find?, List.any]
    norm_num
  · norm_num

/-- Feed event with a valid pinnacle quote, used for the C2 witness. -/
def c2w_event : Event := Event.mk (some "E2W") (some "A") (some "B") (some 50)
  [BookmakerData.mk (some "pinnacle")
    [Market.mk [Outcome.mk (some "A") (some 2), Outcome.mk (some "B") (some 4)]]]

/-- The snapshot the C2 witness run stores. -/
def c2w_snap : OddsSnapshot := OddsSnapshot.mk 1 "pinnacle" 2 4 none (1/2) (1/4) none 7

/-- A bookmaker block whose home price is missing, used for the C2 witness. -/
def c2w_bad_bd : BookmakerData := BookmakerData.mk (some "bet365")
  [Market.mk [Outcome.mk (some "A") none, Outcome.mk (some "B") (some 2)]]

/-- Witness for the amended C2: the stored snapshot of a concrete ingest
run is well-formed, and a block with a missing home price stores nothing. -/
theorem c2_amended_witness :
    (c2w_snap ∈ empty_db.snapshots ∨ snap_wellformed c2w_snap) ∧
    process_bookmaker "A" "B" 5 7 c2w_bad_bd = none := by
  have heval : (ingest_odds (fun _ => false) "basketball_nba" 7 [c2w_event] empty_db).1.snapshots =
      [c2w_snap] := by
    simp [ingest_odds, ingest_go, process_event, upsert_game, process_bookmaker,
      lookup_price, truthyQ, ALL_BOOKS, SHARP_BOOKS, SOFT_BOOKS, c2w_event,
      c2w_snap, empty_db, List.filterMap, List.isEmpty, List.find?, List.any]
  refine ⟨?_, ?_⟩
  · exact (c2_amended (fun _ => false) "basketball_nba" 7 [c2w_event] empty_db).1
      c2w_snap (by rw [heval]; simp)
  · exact (c2_amended (fun _ => false) "basketball_nba" 7 [c2w_event] empty_db).2
      "A" "B" 5 c2w_bad_bd (Market.mk [Outcome.mk (some "A") none, Outcome.mk (some "B") (some 2)])
      rfl (Or.inl (by simp [lookup_price]))

/-- Feed event with a single valid pinnacle block, used for claim C3. -/
def c3_event : Event := Event.mk (some "E3") (some "A") (some "B") (some 50)
  [BookmakerData.mk (some "pinnacle")
    [Market.mk [Outcome.mk (some "A") (some 2), Outcome.mk (some "B") (some (21/10))]]]

/-- Claim C3 failing case: when the per-event commit hits the
duplicate-snapshot constraint (IntegrityError), the rollback discards the
event's pending snapshots while ingested_count keeps the increments made
at add time, so ingest_odds returns 1 although 0 snapshots were
persisted.  The duplicate is indeed caught without aborting the call, but
it IS counted. -/
theorem c3_count_exceeds_persisted :
    (ingest_odds (fun _ => true) "basketball_nba" 0 [c3_event] empty_db).2 = 1 ∧
    (ingest_odds (fun _ => true) "basketball_nba" 0 [c3_event] empty_db).1.snapshots = [] := by
  constructor
  · simp [ingest_odds, ingest_go, process_event, upsert_game, process_bookmaker,
      lookup_price, truthyQ, ALL_BOOKS, SHARP_BOOKS, SOFT_BOOKS, c3_event,
      empty_db, List.filterMap, List.isEmpty, List.find?, List.any]
  · simp [ingest_odds, ingest_go, process_event, upsert_game, process_bookmaker,
      lookup_price, truthyQ, ALL_BOOKS, SHARP_BOOKS, SOFT_BOOKS, c3_event,
      empty_db, List.filterMap, List.isEmpty, List.find?, List.any]

/-- Claim C8: starting from a store with at most one Game per external
identifier, every ingest_odds call preserves that invariant, and existing
Game rows are kept (reused), never replaced. -/
theorem c8_game_dedup_preserved (dup : OddsSnapshot → Bool) (sport : String)
    (now : Nat) (events : List Event) (db : DBState) (h : games_dedup db) :
    games_dedup (ingest_odds dup sport now events db).1 ∧
    ∀ g ∈ db.games, g ∈ (ingest_odds dup sport now events db).1.games := by
  unfold ingest_odds
  split
  · exact ⟨h, fun g hg => hg⟩
  · exact ⟨(ingest_go_inv dup sport now events db 0).1 h,
      (ingest_go_inv dup sport now events db 0).2.1⟩

/-- Store already holding the game with external id E8. -/
def c8_db : DBState := DBState.mk [Game.mk 1 "E8" "NBA" "A" "B" 100 none] [] 2

/-- Feed event re-delivering the already-known external id E8. -/
def c8_event : Event := Event.mk (some "E8") (some "A") (some "B") (some 100) []

/-- Witness for C8: re-ingesting the known identifier E8 keeps the store
deduplicated and keeps the existing row. -/
theorem c8_game_dedup_preserved_witness :
    games_dedup (ingest_odds (fun _ => false) "basketball_nba" 0 [c8_event] c8_db).1 ∧
    ∀ g ∈ c8_db.games, g ∈ (ingest_odds (fun _ => false) "basketball_nba" 0 [c8_event] c8_db).1.games :=
  c8_game_dedup_preserved (fun _ => false) "basketball_nba" 0 [c8_event] c8_db
    (by simp [games_dedup, c8_db])
